import Mathlib

/-!
Shallow embedding of the test-support helpers in `testutil.go` of
rainforestapp/testutil: the readiness-polling loop `WaitFor`
(testutil.go:204-214), the crash-assertion helper `ShouldCrash`
(testutil.go:226-238), and the output-capture helper `CaptureStdout`
(testutil.go:243-272).

Effects are made explicit: clock reads become an input stream of time
values, probe results become an input stream of booleans, and
process/pipe outcomes become explicit parameters.  The polling loop,
which in Go runs until the probe succeeds or the deadline passes, is
embedded with a fuel parameter: `none` means the loop had not yet
returned after `fuel` iterations.
-/

namespace Testutil

/-- Observable outcome of one call to `WaitFor`: how many times the probe
(`try`) was invoked and how many times `fail` was invoked.  `WaitFor`
returns no value and raises no error in the source, so the outcome
carries no error channel. -/
structure WaitResult where
  probeCalls : Nat
  failCalls : Nat
deriving Repr, DecidableEq

/-- The loop of `WaitFor` (testutil.go:206-213), starting at iteration `i`
with `fuel` iterations allowed.  `tryFun j` is the result of the `j`-th
call to `try` (the source's `try` is a Lean keyword, hence `tryFun`);
`now k` is the value read by the `k`-th call to `time.Now()`: call 0 is
`start := time.Now()` at entry, and iteration `j`'s timeout check
`time.Now().Sub(start) > timeout` reads call `j + 1`.  `start` is the
start time recorded before the loop.  Returns `none` when `fuel` runs out
before the loop returns. -/
def waitForAux (tryFun : Nat → Bool) (now : Nat → Int) (timeout : Int)
    (start : Int) : Nat → Nat → Option WaitResult
  | 0, _ => none
  | fuel + 1, i =>
    if tryFun i then some ⟨i + 1, 0⟩
    else if now (i + 1) - start > timeout then some ⟨i + 1, 1⟩
    else waitForAux tryFun now timeout start fuel (i + 1)

/-- `WaitFor` (testutil.go:204-214): records `start := time.Now()` once at
entry (`now 0`), then loops. -/
def WaitFor (tryFun : Nat → Bool) (now : Nat → Int) (timeout : Int)
    (fuel : Nat) : Option WaitResult :=
  waitForAux tryFun now timeout (now 0) fuel 0

/-- Spec-side reformulation of the loop, following the spec's words "the
deadline, once computed, is never recomputed during a single wait": the
fixed `deadline` is compared against the current clock value on every
iteration. -/
def waitForDeadlineAux (tryFun : Nat → Bool) (now : Nat → Int)
    (deadline : Int) : Nat → Nat → Option WaitResult
  | 0, _ => none
  | fuel + 1, i =>
    if tryFun i then some ⟨i + 1, 0⟩
    else if now (i + 1) > deadline then some ⟨i + 1, 1⟩
    else waitForDeadlineAux tryFun now deadline fuel (i + 1)

/-- Spec-side reformulation of `WaitFor`: the deadline `now 0 + timeout`
is computed exactly once, at entry. -/
def waitForDeadline (tryFun : Nat → Bool) (now : Nat → Int) (timeout : Int)
    (fuel : Nat) : Option WaitResult :=
  waitForDeadlineAux tryFun now (now 0 + timeout) fuel 0

/-- Behaviour of the code under test passed to `ShouldCrash`: it either
returns normally or terminates the process itself with an exit code
(for example via `log.Fatal`, which exits with code 1). -/
inductive TryBehavior
  | returns
  | exits (code : Nat)
deriving Repr, DecidableEq

/-- Result of `cmd.Run()` in `ShouldCrash` (testutil.go:233), as the Go
`os/exec` package classifies it: `exitError succ` is a `*exec.ExitError`
whose `Success()` method returns `succ`; `startErr` is any other non-nil
error (the re-exec of the test binary could not start). -/
inductive RunErr
  | exitError (succ : Bool)
  | startErr
deriving Repr, DecidableEq

/-- Observable outcome of one call to `ShouldCrash` in one process:
whether the child branch ran (`try` invoked directly), the exit code of
this process if it terminated (child role), whether a child process was
spawned (parent role), and how many times `fail` was invoked. -/
structure ShouldCrashOut where
  childRan : Bool
  childExit : Option Nat
  spawned : Bool
  failCalls : Nat
deriving Repr, DecidableEq

/-- `ShouldCrash` (testutil.go:226-238).  `env` is the value of
`os.Getenv "SHOULD_CRASH"` (the empty string when the variable is
unset).  `tryFun` is the behaviour of the code under test, relevant in
the child role.  `runResult` is the outcome of `cmd.Run()` on the
re-invoked test binary, relevant in the parent role (`none` means the
child ran and exited with status 0). -/
def ShouldCrash (env : String) (tryFun : TryBehavior)
    (runResult : Option RunErr) : ShouldCrashOut :=
  if env = "1" then
    match tryFun with
    | .exits c => { childRan := true, childExit := some c, spawned := false, failCalls := 0 }
    | .returns => { childRan := true, childExit := some 0, spawned := false, failCalls := 0 }
  else
    match runResult with
    | some (.exitError succ) =>
      if !succ then { childRan := false, childExit := none, spawned := true, failCalls := 0 }
      else { childRan := false, childExit := none, spawned := true, failCalls := 1 }
    | _ => { childRan := false, childExit := none, spawned := true, failCalls := 1 }

/-- Semantics of the external `os/exec` collaborator: `cmd.Run` returns
no error when the child process exits with status 0, and a
`*exec.ExitError` whose `Success()` is false when the child exits with a
non-zero status. -/
def runOfChildExit (code : Nat) : Option RunErr :=
  if code = 0 then none else some (.exitError false)

/-- Go `error` values, identified by their message. -/
structure GoError where
  msg : String
deriving Repr, DecidableEq

/-- `CaptureStdout` (testutil.go:243-272).  File handles are modelled as
natural numbers: `stdout0` is the value of `os.Stdout` at entry and `w`
is the write end of the pipe.  `pipeErr`, `printErr`, `closeErr` and
`copyErr` are the errors returned by `os.Pipe()`, `printFunction()`,
`w.Close()` and `io.Copy` (`none` = nil); `output` is what
`printFunction` wrote to the pipe, as recovered by `io.Copy`.  The value
is the pair (function result, value of `os.Stdout` after return): the
`defer` registered after a successful `os.Pipe` assigns the saved
`originalStdOut` back to `os.Stdout` on every later return path, while
the `os.Pipe` failure path returns before `os.Stdout` is touched. -/
def CaptureStdout (stdout0 w : Nat) (pipeErr printErr closeErr copyErr : Option GoError)
    (output : String) : (String × Option GoError) × Nat :=
  match pipeErr with
  | some e => (("", some e), stdout0)
  | none =>
    let originalStdOut := stdout0
    let _stdoutWhilePrinting := w
    match printErr with
    | some e => (("", some e), originalStdOut)
    | none =>
      match closeErr with
      | some e => (("", some e), originalStdOut)
      | none =>
        match copyErr with
        | some e => (("", some e), originalStdOut)
        | none => ((output, none), originalStdOut)

/-! Helper lemmas about the polling loop. -/

/-- When the probe never succeeds, any terminating run of the loop
invokes `fail` exactly once, does so at the first clock reading that
exceeds the timeout, and all earlier timeout checks were within the
timeout. -/
theorem waitForAux_allFalse (tryFun : Nat → Bool) (now : Nat → Int)
    (timeout start : Int) (hfalse : ∀ j, tryFun j = false) :
    ∀ fuel i r, waitForAux tryFun now timeout start fuel i = some r →
      r.failCalls = 1 ∧ i < r.probeCalls ∧
      timeout < now r.probeCalls - start ∧
      ∀ j, i ≤ j → j + 1 < r.probeCalls → now (j + 1) - start ≤ timeout := by
  intro fuel
  induction fuel with
  | zero => intro i r h; simp [waitForAux] at h
  | succ fuel ih =>
    intro i r h
    simp only [waitForAux, hfalse i, Bool.false_eq_true, if_false] at h
    split at h
    · next hc =>
      cases h
      refine ⟨rfl, Nat.lt_succ_self i, hc, ?_⟩
      intro j hij hj
      have hj' : j + 1 < i + 1 := hj
      omega
    · next hc =>
      obtain ⟨h1, h2, h3, h4⟩ := ih (i + 1) r h
      refine ⟨h1, by omega, h3, ?_⟩
      intro j hij hj
      rcases Nat.eq_or_lt_of_le hij with heq | hlt
      · subst heq
        omega
      · exact h4 j hlt hj

/-- When the probe never succeeds and some clock reading exceeds the
timeout, the loop terminates with `fail` invoked exactly once. -/
theorem waitForAux_allFalse_terminates (tryFun : Nat → Bool) (now : Nat → Int)
    (timeout start : Int) (hfalse : ∀ j, tryFun j = false) :
    ∀ fuel i, timeout < now (i + fuel + 1) - start →
      ∃ r, waitForAux tryFun now timeout start (fuel + 1) i = some r ∧
        r.failCalls = 1 := by
  intro fuel
  induction fuel with
  | zero =>
    intro i hlt
    exact ⟨⟨i + 1, 1⟩, by simp [waitForAux, hfalse i, hlt], rfl⟩
  | succ fuel ih =>
    intro i hlt
    by_cases hc : timeout < now (i + 1) - start
    · exact ⟨⟨i + 1, 1⟩, by simp [waitForAux, hfalse i, hc], rfl⟩
    · have hidx : i + 1 + fuel + 1 = i + (fuel + 1) + 1 := by omega
      obtain ⟨r, hr, hr1⟩ := ih (i + 1) (by rw [hidx]; exact hlt)
      refine ⟨r, ?_, hr1⟩
      simpa [waitForAux, hfalse i, hc] using hr

/-- When the probe first succeeds at call `N` and every earlier timeout
check is within the timeout, the loop returns success after `N + 1`
probe calls without invoking `fail`. -/
theorem waitForAux_eventuallyTrue (tryFun : Nat → Bool) (now : Nat → Int)
    (timeout start : Int) (N : Nat)
    (hfalse : ∀ j, j < N → tryFun j = false) (htrue : tryFun N = true)
    (hin : ∀ j, j < N → now (j + 1) - start ≤ timeout) :
    ∀ k i, i + k = N →
      waitForAux tryFun now timeout start (k + 1) i = some ⟨N + 1, 0⟩ := by
  intro k
  induction k with
  | zero =>
    intro i hi
    have hiN : i = N := by omega
    subst hiN
    simp [waitForAux, htrue]
  | succ k ih =>
    intro i hi
    have hiN : i < N := by omega
    have h1 : ¬ timeout < now (i + 1) - start := not_lt.mpr (hin i hiN)
    have h2 := ih (i + 1) (by omega)
    simpa [waitForAux, hfalse i hiN, h1] using h2

/-- Every terminating run of the loop started at iteration `i` has made
at least `i + 1` probe calls: the probe runs before any timeout check. -/
theorem waitForAux_probeCalls_pos (tryFun : Nat → Bool) (now : Nat → Int)
    (timeout start : Int) :
    ∀ fuel i r, waitForAux tryFun now timeout start fuel i = some r →
      i < r.probeCalls := by
  intro fuel
  induction fuel with
  | zero => intro i r h; simp [waitForAux] at h
  | succ fuel ih =>
    intro i r h
    simp only [waitForAux] at h
    split at h
    · cases h; exact Nat.lt_succ_self i
    · split at h
      · cases h; exact Nat.lt_succ_self i
      · exact Nat.lt_of_succ_lt (ih (i + 1) r h)

/-- The source loop, which re-reads the start time's difference on every
check, computes the same result as the spec-side loop that compares
against the fixed deadline `start + timeout`. -/
theorem waitForAux_eq_deadlineAux (tryFun : Nat → Bool) (now : Nat → Int)
    (timeout start : Int) :
    ∀ fuel i, waitForAux tryFun now timeout start fuel i =
      waitForDeadlineAux tryFun now (start + timeout) fuel i := by
  intro fuel
  induction fuel with
  | zero => intro i; rfl
  | succ fuel ih =>
    intro i
    simp only [waitForAux, waitForDeadlineAux, ih (i + 1)]
    by_cases htry : tryFun i = true
    · simp [htry]
    · have htry' : tryFun i = false := Bool.not_eq_true _ ▸ htry
      simp only [htry', Bool.false_eq_true, if_false]
      have hcond : (now (i + 1) - start > timeout) ↔ (now (i + 1) > start + timeout) := by
        omega
      exact if_congr hcond rfl rfl

/-! Claim theorems. -/

/-- Claim C1: in `ShouldCrash`'s parent role (environment marker not set
to "1"; `os.Getenv` returns the empty string when the marker is absent),
if the re-invoked child process terminates with a non-zero exit status
then `fail` is not invoked, and if the child exits with status 0 then
`fail` is invoked exactly once. -/
theorem shouldCrash_parent_exitStatus (env : String) (tryFun : TryBehavior)
    (code : Nat) (henv : env ≠ "1") :
    (code ≠ 0 → (ShouldCrash env tryFun (runOfChildExit code)).failCalls = 0) ∧
    (code = 0 → (ShouldCrash env tryFun (runOfChildExit code)).failCalls = 1) := by
  constructor
  · intro hc
    simp [ShouldCrash, runOfChildExit, henv, hc]
  · intro hc
    simp [ShouldCrash, runOfChildExit, henv, hc]

theorem shouldCrash_parent_exitStatus_witness :
    (ShouldCrash "" .returns (runOfChildExit 1)).failCalls = 0 ∧
    (ShouldCrash "" .returns (runOfChildExit 0)).failCalls = 1 :=
  ⟨(shouldCrash_parent_exitStatus "" .returns 1 (by decide)).1 (by decide),
   (shouldCrash_parent_exitStatus "" .returns 0 (by decide)).2 rfl⟩

/-- Claim C2: when the probe always returns false and the clock
eventually exceeds the timeout, `WaitFor` terminates and invokes `fail`
exactly once; in every terminating run `fail` is invoked exactly once,
only at the first check whose elapsed time since entry exceeds the
timeout (all earlier checks were within it); the result carries no error
channel, mirroring the source's void return. -/
theorem waitFor_allFalse_timesOut (tryFun : Nat → Bool) (now : Nat → Int)
    (timeout : Int) (N : Nat) (hfalse : ∀ j, tryFun j = false)
    (hN : timeout < now (N + 1) - now 0) :
    (∃ r, WaitFor tryFun now timeout (N + 1) = some r ∧ r.failCalls = 1) ∧
    (∀ fuel r, WaitFor tryFun now timeout fuel = some r →
      r.failCalls = 1 ∧ 1 ≤ r.probeCalls ∧
      timeout < now r.probeCalls - now 0 ∧
      ∀ j, j + 1 < r.probeCalls → now (j + 1) - now 0 ≤ timeout) := by
  constructor
  · obtain ⟨r, hr, h1⟩ := waitForAux_allFalse_terminates tryFun now timeout (now 0)
      hfalse N 0 (by simpa using hN)
    exact ⟨r, hr, h1⟩
  · intro fuel r h
    obtain ⟨h1, h2, h3, h4⟩ := waitForAux_allFalse tryFun now timeout (now 0)
      hfalse fuel 0 r h
    exact ⟨h1, h2, h3, fun j hj => h4 j (Nat.zero_le j) hj⟩

theorem waitFor_allFalse_timesOut_witness :
    ∃ r, WaitFor (fun _ => false) (fun k => (k : Int)) 2 4 = some r ∧
      r.failCalls = 1 :=
  (waitFor_allFalse_timesOut (fun _ => false) (fun k => (k : Int)) 2 3
    (fun _ => rfl) (by decide)).1

/-- Claim C3 counterexample: a subprocess launch failure (a `cmd.Run`
error that is not a `*exec.ExitError`) is not surfaced separately — it
falls through to `fail()`, so `fail` is invoked once, contradicting the
claim that `onFail` is not invoked for it. -/
theorem shouldCrash_startErr_callsFail_cex :
    (ShouldCrash "" .returns (some .startErr)).failCalls = 1 := rfl

/-- Claim C3 (amended): in `ShouldCrash`'s parent role, a subprocess
launch failure (a run error that is not an exit-status error) is treated
exactly like an assertion failure: `fail` is invoked exactly once, and
no separate fatal surfacing exists. -/
theorem shouldCrash_startErr_callsFail (env : String) (tryFun : TryBehavior)
    (henv : env ≠ "1") :
    (ShouldCrash env tryFun (some .startErr)).failCalls = 1 := by
  simp [ShouldCrash, henv]

theorem shouldCrash_startErr_callsFail_witness :
    (ShouldCrash "x" .returns (some .startErr)).failCalls = 1 :=
  shouldCrash_startErr_callsFail "x" .returns (by decide)

/-- Claim C4: if the probe returns true on its first invocation,
`WaitFor` returns immediately: exactly one probe call, no `fail` call,
for any clock, timeout and remaining fuel. -/
theorem waitFor_firstTrue (tryFun : Nat → Bool) (now : Nat → Int)
    (timeout : Int) (fuel : Nat) (htrue : tryFun 0 = true) :
    WaitFor tryFun now timeout (fuel + 1) = some ⟨1, 0⟩ := by
  simp [WaitFor, waitForAux, htrue]

theorem waitFor_firstTrue_witness :
    WaitFor (fun _ => true) (fun _ => 0) 5 1 = some ⟨1, 0⟩ :=
  waitFor_firstTrue (fun _ => true) (fun _ => 0) 5 0 rfl

/-- Claim C5: if the probe returns false on its first `N` invocations,
true on invocation `N + 1`, and the elapsed time at each of the first
`N` false results is within the timeout, `WaitFor` returns successfully
(`N + 1` probe calls) without ever invoking `fail`. -/
theorem waitFor_eventuallyTrue (tryFun : Nat → Bool) (now : Nat → Int)
    (timeout : Int) (N : Nat)
    (hfalse : ∀ j, j < N → tryFun j = false) (htrue : tryFun N = true)
    (hin : ∀ j, j < N → now (j + 1) - now 0 ≤ timeout) :
    WaitFor tryFun now timeout (N + 1) = some ⟨N + 1, 0⟩ :=
  waitForAux_eventuallyTrue tryFun now timeout (now 0) N hfalse htrue hin N 0
    (by omega)

theorem waitFor_eventuallyTrue_witness :
    WaitFor (fun j => j == 2) (fun k => (k : Int)) 10 3 = some ⟨3, 0⟩ :=
  waitFor_eventuallyTrue (fun j => j == 2) (fun k => (k : Int)) 10 2
    (by decide) (by decide) (by decide)

/-- Claim C6: in `ShouldCrash`'s child role (marker equal to "1"), the
code under test is invoked directly; if it returns normally the process
exits with status 0 (and if it terminates the process itself, the exit
code is its own); the parent branch never spawns a child in that
process, and `fail` is never invoked there. -/
theorem shouldCrash_child (tryFun : TryBehavior) (runResult : Option RunErr) :
    (ShouldCrash "1" tryFun runResult).childRan = true ∧
    (ShouldCrash "1" tryFun runResult).spawned = false ∧
    (ShouldCrash "1" tryFun runResult).failCalls = 0 ∧
    (tryFun = .returns → (ShouldCrash "1" tryFun runResult).childExit = some 0) ∧
    (∀ c, tryFun = .exits c → (ShouldCrash "1" tryFun runResult).childExit = some c) := by
  cases tryFun <;> simp [ShouldCrash]

theorem shouldCrash_child_witness :
    (ShouldCrash "1" .returns none).childExit = some 0 :=
  (shouldCrash_child .returns none).2.2.2.1 rfl

/-- Claim C7: the start time is read once at entry (`now 0`) and the
source loop, which recomputes `time.Now().Sub(start)` against `timeout`
on every iteration, behaves identically to the spec-side loop that
compares the clock against the fixed deadline `now 0 + timeout` computed
once: the deadline is never effectively recomputed. -/
theorem waitFor_fixedDeadline (tryFun : Nat → Bool) (now : Nat → Int)
    (timeout : Int) (fuel : Nat) :
    WaitFor tryFun now timeout fuel = waitForDeadline tryFun now timeout fuel :=
  waitForAux_eq_deadlineAux tryFun now timeout (now 0) fuel 0

/-- Claim C8: for every timeout, including zero and negative values, the
probe is invoked before any timeout check — every terminating run has at
least one probe call — and if the first probe call returns true,
`WaitFor` returns successfully without invoking `fail`. -/
theorem waitFor_probesBeforeTimeoutCheck (tryFun : Nat → Bool)
    (now : Nat → Int) (timeout : Int) :
    (∀ fuel r, WaitFor tryFun now timeout fuel = some r → 1 ≤ r.probeCalls) ∧
    (tryFun 0 = true → ∀ fuel, WaitFor tryFun now timeout (fuel + 1) = some ⟨1, 0⟩) := by
  constructor
  · intro fuel r h
    exact waitForAux_probeCalls_pos tryFun now timeout (now 0) fuel 0 r h
  · intro htrue fuel
    simp [WaitFor, waitForAux, htrue]

theorem waitFor_probesBeforeTimeoutCheck_witness :
    WaitFor (fun _ => true) (fun _ => 0) (-5) 1 = some ⟨1, 0⟩ :=
  (waitFor_probesBeforeTimeoutCheck (fun _ => true) (fun _ => 0) (-5)).2 rfl 0

/-- Claim C9: whenever `printFunction` returns a non-nil error (the pipe
was created, so `printFunction` actually ran), `CaptureStdout` returns
the empty string together with that same error, discarding the captured
output. -/
theorem captureStdout_printErr (stdout0 w : Nat) (e : GoError)
    (closeErr copyErr : Option GoError) (output : String) :
    (CaptureStdout stdout0 w none (some e) closeErr copyErr output).1 =
      ("", some e) := rfl

/-- Claim C10: `CaptureStdout` leaves `os.Stdout` at the value it held at
entry on every return path — the success path and each of the
pipe-creation, print, close and copy error paths. -/
theorem captureStdout_restoresStdout (stdout0 w : Nat)
    (pipeErr printErr closeErr copyErr : Option GoError) (output : String) :
    (CaptureStdout stdout0 w pipeErr printErr closeErr copyErr output).2 =
      stdout0 := by
  cases pipeErr <;> cases printErr <;> cases closeErr <;> cases copyErr <;> rfl

end Testutil
